import Mathlib

/-!
Shallow embedding of the two C programs of SuperDARN/theses_dissertations:
`parse_theses.c` (alphabetical variant, fixed capacity MAX_DOC) and
`parse_theses_year.c` (year variant, dynamically grown array).

Input is modelled as the list of text lines of the file, line terminators
already stripped (this is what `fgets` followed by
`line[strcspn(line, "\r\n")] = 0` yields for each line).  C strings are
modelled as Lean strings over their character sequence; a C string never
contains an interior NUL, so `url[0] == '\0'` is the same as the string
being empty.
-/

namespace Theses

/-- Record structure `struct thesis` shared by both programs: seven
text fields, filled from seven consecutive input lines. -/
structure Thesis where
  author : String
  year : String
  title : String
  advisor : String
  affiliation : String
  degree : String
  url : String
deriving DecidableEq, Repr

/-- Model of C `strcmp` on character lists: compare code points left to
right, a proper prefix compares less.  Only the sign of the C result is
ever used by the programs, so the model returns -1, 0 or 1. -/
def strcmpL : List Char → List Char → Int
  | [], [] => 0
  | [], _ :: _ => -1
  | _ :: _, [] => 1
  | a :: as, b :: bs =>
    if a < b then -1
    else if b < a then 1
    else strcmpL as bs

/-- Model of C `strcmp` on strings. -/
def strcmp (s1 s2 : String) : Int := strcmpL s1.data s2.data

/-- Model of C `toupper` in the default locale on ASCII data:
lowercase letters are shifted to uppercase, everything else unchanged. -/
def toupperC (c : Char) : Char :=
  if 'a' ≤ c ∧ c ≤ 'z' then Char.ofNat (c.toNat - 32) else c

/-- First character of a C string; for the empty string this is the NUL
terminator, `s[0] == '\0'`. -/
def firstChar (s : String) : Char :=
  s.data.headD (Char.ofNat 0)

/-- Model of the local copy made in both `compare` functions:
`strcpy(author1, t->author); author1[0] = toupper(author1[0]);`.
The stored field is never modified, only this copy is. -/
def upperFirst (s : String) : String :=
  match s.data with
  | [] => s
  | c :: cs => String.mk (toupperC c :: cs)

/-- Record with every field empty; stands for the scratch entry
`entry[cnt]` being filled while a group of input lines is read. -/
def emptyThesis : Thesis := ⟨"", "", "", "", "", "", ""⟩

/-- One step of the `switch (i)` statement of `parse_text` (identical in
both programs): line at field position 0-6 is copied into the matching
field of the entry under construction, position 7 (the separator slot)
falls through the switch and the line is discarded. -/
def parseStep (scratch : Thesis) (i : Nat) (line : String) : Thesis :=
  match i with
  | 0 => { scratch with author := line }
  | 1 => { scratch with year := line }
  | 2 => { scratch with title := line }
  | 3 => { scratch with advisor := line }
  | 4 => { scratch with affiliation := line }
  | 5 => { scratch with degree := line }
  | 6 => { scratch with url := line }
  | _ => scratch

/-- Upper bound `#define MAX_DOC 500` of `parse_theses.c`. -/
def MAX_DOC : Nat := 500

/-- Loop of `parse_text` in `parse_theses.c`: `i` is the field-position
counter (reset to 0 after 8, the 8th line of every group being skipped),
`acc` the completed entries (`cnt = acc.length`), `scratch` the entry
currently being filled.  After every line the program checks
`cnt >= MAX_DOC` and returns -1 (modelled as `none`) when it holds. -/
def parseAux (acc : List Thesis) (scratch : Thesis) (i : Nat) :
    List String → Option (List Thesis)
  | [] => some acc
  | line :: rest =>
    let scratch' := parseStep scratch i line
    let acc' := if i = 6 then acc ++ [scratch'] else acc
    if MAX_DOC ≤ acc'.length then none
    else parseAux acc' scratch' (if i + 1 = 8 then 0 else i + 1) rest

/-- Function `parse_text` of `parse_theses.c` on the list of input lines;
`none` models the -1 error return ("Too many entries"). -/
def parse_text (lines : List String) : Option (List Thesis) :=
  parseAux [] emptyThesis 0 lines

/-- Loop of `parse_text` in `parse_theses_year.c`: same field-position
automaton, but the entry array grows dynamically and there is no
capacity check. -/
def parseAuxYear (acc : List Thesis) (scratch : Thesis) (i : Nat) :
    List String → List Thesis
  | [] => acc
  | line :: rest =>
    let scratch' := parseStep scratch i line
    let acc' := if i = 6 then acc ++ [scratch'] else acc
    parseAuxYear acc' scratch' (if i + 1 = 8 then 0 else i + 1) rest

/-- Function `parse_text` of `parse_theses_year.c` on the list of input
lines, returning the completed records (`*num = cnt`). -/
def parse_text_year (lines : List String) : List Thesis :=
  parseAuxYear [] emptyThesis 0 lines

/-- Author key comparison shared by both `compare` functions: `strcmp`
of the two local copies whose first characters were uppercased. -/
def compareAuthor (t1 t2 : Thesis) : Int :=
  strcmp (upperFirst t1.author) (upperFirst t2.author)

/-- Function `compare` of `parse_theses.c`, modelled faithfully.  The
tie-break `if (t1->year < t2->year)` compares the ADDRESSES of the two
`year` arrays embedded in the array elements, not their contents
(`strcmp` is not called); for two elements of the same array this is
exactly the comparison of their current positions, so the model takes
the positions `p1`, `p2` of the two records as extra arguments. -/
def compare_alpha (p1 p2 : Nat) (t1 t2 : Thesis) : Int :=
  let authorcompare := compareAuthor t1 t2
  if authorcompare = 0 then
    if p1 < p2 then -1
    else if p2 < p1 then 1
    else 0
  else authorcompare

/-- Function `compare` of `parse_theses_year.c`: year strings compared
with `strcmp(t2->year, t1->year)` (descending), ties broken by the
case-normalized author comparison. -/
def compare_year (t1 t2 : Thesis) : Int :=
  let yearcompare := strcmp t2.year t1.year
  if yearcompare = 0 then compareAuthor t1 t2
  else yearcompare

/-- Begin marker written first by both `write_html` functions. -/
def beginMarker : String :=
  "<!-- *** BEGIN THESIS/DISSERTATION CONTENT HERE *** --!>\n"

/-- End marker written last by both `write_html` functions. -/
def endMarker : String :=
  "<!-- *** END THESIS/DISSERTATION CONTENT HERE *** --!>\n"

/-- Array `char *alph[4] = {"A-G", "H-N", "O-U", "V-Z"}` of
`parse_theses.c`. -/
def alph : List String := ["A-G", "H-N", "O-U", "V-Z"]

/-- Starting letter `alph[j][0]` of bucket `j`. -/
def bucketChar (j : Nat) : Char := firstChar (alph.getD j "")

/-- Condition of `parse_theses.c` line 194:
`(j < 4) && (toupper(entry[i].author[0]) >= alph[j][0])`. -/
def anchorHit (j : Nat) (t : Thesis) : Prop :=
  j < 4 ∧ (bucketChar j).toNat ≤ (toupperC (firstChar t.author)).toNat

instance (j : Nat) (t : Thesis) : Decidable (anchorHit j t) := by
  unfold anchorHit; infer_instance

/-- Names of the alphabetical navigation anchors inserted by the record
loop of `write_html` in `parse_theses.c`: one bucket index `j`, advanced
at most once per record, an anchor `alph[j]` being emitted before the
current record's table whenever the uppercased first author character
has reached that bucket's starting letter. -/
def anchorsAlpha (j : Nat) : List Thesis → List String
  | [] => []
  | t :: ts =>
    if anchorHit j t then alph.getD j "" :: anchorsAlpha (j + 1) ts
    else anchorsAlpha j ts

/-- Second cell of the degree row, printed for a non-empty `url` field:
an "URL" link whose href is exactly the stored string, opening in a new
browsing context. -/
def urlCell (u : String) : String :=
  "<td align=\"right\"><a href=\"" ++ u ++ "\" target=\"_blank\">URL</a></td></tr>\n"

/-- Degree row of the per-record table (identical lines in both
programs): one cell always, plus the `urlCell` exactly when the `url`
field is non-empty (`entry[i].url[0] == '\0'` is the emptiness test;
a C string is empty iff its first byte is NUL). -/
def degreeRow (t : Thesis) : String :=
  "    <tr><td><b>Degree:</b> " ++ t.degree ++ "</td>" ++
  (if t.url = "" then "</tr>\n" else urlCell t.url)

/-- Author row of the per-record table, the field printed through `%s`
with no escaping. -/
def authorRow (t : Thesis) : String :=
  "    <tr><td><b>Author:</b> " ++ t.author ++ "</td></tr>\n"

/-- Year row of the per-record table. -/
def yearRow (t : Thesis) : String :=
  "    <tr><td><b>Year:</b> " ++ t.year ++ "</td></tr>\n"

/-- Title row of the per-record table. -/
def titleRow (t : Thesis) : String :=
  "    <tr><td><b>Title:</b> " ++ t.title ++ "</td></tr>\n"

/-- Advisor row of the per-record table. -/
def advisorRow (t : Thesis) : String :=
  "    <tr><td><b>Advisor:</b> " ++ t.advisor ++ "</td></tr>\n"

/-- Affiliation row of the per-record table. -/
def affiliationRow (t : Thesis) : String :=
  "    <tr><td><b>Affiliation:</b> " ++ t.affiliation ++ "</td></tr>\n"

/-- HTML table emitted for one record (identical lines in both
programs): six labeled rows, the degree row optionally carrying the URL
cell. -/
def tableFor (t : Thesis) : String :=
  "  <table style=\"border:1px solid black; width:600px;\">\n"
  ++ authorRow t
  ++ yearRow t
  ++ titleRow t
  ++ advisorRow t
  ++ affiliationRow t
  ++ degreeRow t
  ++ "  </table><br>\n\n"

/-- Count of records whose degree is exactly "MS" (`ms_cnt`). -/
def msCount (recs : List Thesis) : Nat :=
  (recs.filter (fun t => t.degree = "MS")).length

/-- Count of records whose degree is exactly "PhD"; the `else if` makes
the two buckets disjoint, so a filter per bucket is the same count. -/
def phdCount (recs : List Thesis) : Nat :=
  (recs.filter (fun t => t.degree = "PhD")).length

/-- Summary lines and closing markup shared by both `write_html`
functions. -/
def footer (recs : List Thesis) : String :=
  "  <center>Number of items: <b>" ++ toString recs.length ++ "</b></center>\n"
  ++ "  <center>(" ++ toString (msCount recs) ++ " MS | "
  ++ toString (phdCount recs) ++ " PhD)</center>\n\n"
  ++ "</div>\n"
  ++ endMarker

/-- Fixed "Jump to" header of `parse_theses.c`: the loop prints all four
bucket links unconditionally, the first three followed by a separator. -/
def navHeaderAlpha : String :=
  "  <b>Jump to:</b>&nbsp;\n"
  ++ String.join ((alph.take 3).map
      (fun s => "  <a href=\"#" ++ s ++ "\">" ++ s ++ "</a>&nbsp;|\n"))
  ++ "  <a href=\"#" ++ alph.getD 3 "" ++ "\">" ++ alph.getD 3 "" ++ "</a>\n\n"
  ++ "  <br><br>\n\n"

/-- Record loop of `write_html` in `parse_theses.c`: before each table
the pending bucket anchor is emitted when its condition holds, mirroring
`anchorsAlpha`. -/
def bodyAlpha (j : Nat) : List Thesis → String
  | [] => ""
  | t :: ts =>
    if anchorHit j t then
      ("  <a name=" ++ alph.getD j "" ++ "></a>\n\n")
        ++ tableFor t ++ bodyAlpha (j + 1) ts
    else tableFor t ++ bodyAlpha j ts

/-- Function `write_html` of `parse_theses.c`: full text written to
stdout for the given (already sorted) records. -/
def write_html_alpha (recs : List Thesis) : String :=
  beginMarker ++ "<div align=\"center\">\n\n"
  ++ navHeaderAlpha
  ++ bodyAlpha 0 recs
  ++ footer recs

/-- Year links of `write_html` in `parse_theses_year.c` after the first:
the loop walks every record and emits a link whenever the record's year
differs (by `strcmp`) from the year last linked. -/
def navYearAux (year : String) : List Thesis → List String
  | [] => []
  | t :: ts =>
    if strcmp year t.year ≠ 0 then t.year :: navYearAux t.year ts
    else navYearAux year ts

/-- Labels of the "Jump to" year links of `parse_theses_year.c`, in
emission order: `entry[0].year` is linked first, then the loop over all
records adds a link at every change of year. -/
def navLinksYear : List Thesis → List String
  | [] => []
  | t0 :: rest => t0.year :: navYearAux t0.year (t0 :: rest)

/-- Year labels of the anchor/heading pairs of `parse_theses_year.c`
after the first: the record loop emits an `<a name=...>` anchor and a
centered heading whenever the record's year differs from the year of
the previous heading. -/
def anchorsYearAux (year : String) : List Thesis → List String
  | [] => []
  | t :: ts =>
    if strcmp year t.year ≠ 0 then t.year :: anchorsYearAux t.year ts
    else anchorsYearAux year ts

/-- Year labels of all anchor/heading pairs emitted by
`parse_theses_year.c`: one for `entry[0].year` before the loop, then one
per change of year inside the loop. -/
def anchorsYear : List Thesis → List String
  | [] => []
  | t0 :: rest => t0.year :: anchorsYearAux t0.year (t0 :: rest)

/-- Anchor plus centered heading emitted for one year value. -/
def yearHeading (y : String) : String :=
  "  <a name=" ++ y ++ "></a>\n" ++ "  <center><b>" ++ y ++ "</b></center><br>\n\n"

/-- Record loop of `write_html` in `parse_theses_year.c`: a year heading
is inserted before the table at every change of year. -/
def bodyYear (year : String) : List Thesis → String
  | [] => ""
  | t :: ts =>
    if strcmp year t.year ≠ 0 then
      yearHeading t.year ++ tableFor t ++ bodyYear t.year ts
    else tableFor t ++ bodyYear year ts

/-- Function `write_html` of `parse_theses_year.c`.  The function starts
by reading `entry[0].year` (lines 181 and 194) before any emptiness
check; when zero records were parsed `entry` is the null pointer (or a
partially filled allocation) and the access is invalid, which the model
renders as `none`. -/
def write_html_year (recs : List Thesis) : Option String :=
  match recs with
  | [] => none
  | t0 :: rest =>
    some (beginMarker ++ "<div align=\"center\">\n\n"
      ++ "  <div style=\"width:800px;\">\n"
      ++ "    <b>Jump to:</b>&nbsp;\n"
      ++ "    <a href=\"#" ++ t0.year ++ "\">" ++ t0.year ++ "</a>&nbsp;"
      ++ String.join ((navYearAux t0.year (t0 :: rest)).map
          (fun y => "|\n    <a href=\"#" ++ y ++ "\">" ++ y ++ "</a>&nbsp;"))
      ++ "\n  </div>\n"
      ++ "  <br><br>\n\n"
      ++ yearHeading t0.year
      ++ bodyYear t0.year (t0 :: rest)
      ++ footer (t0 :: rest))

/-- Sort step of `main` in `parse_theses.c`.  Since the author tie-break
of `compare` inspects buffer addresses rather than the `year` contents
(see `compare_alpha`), `qsort` may leave equal-author records in any
relative order; the model fixes one admissible outcome, a stable sort by
the author key.  Every property proved about it below is insensitive to
the order chosen for equal-author records. -/
def sortAlpha (recs : List Thesis) : List Thesis :=
  recs.mergeSort (fun t1 t2 => compareAuthor t1 t2 ≤ 0)

/-- Pipeline of `main` in `parse_theses.c`: parse, sort, render; `none`
models the early `return (-1)` after a parse failure, in which case
nothing is written to stdout. -/
def main_alpha (lines : List String) : Option String :=
  (parse_text lines).map (fun es => write_html_alpha (sortAlpha es))

/-- Proposition that `s` occurs verbatim as a contiguous substring of
`t`. -/
def occursIn (s t : String) : Prop := ∃ u v : String, t = u ++ s ++ v

/-- Proposition that `t` starts with the text `p`. -/
def beginsWith (p t : String) : Prop := ∃ v : String, t = p ++ v

/-- Each of the seven field values of `t` appears verbatim, inside its
labeled table cell, in the text `s`; the `url` field appears as the
href of the link cell whenever it is non-empty. -/
def fieldsVerbatim (t : Thesis) (s : String) : Prop :=
  occursIn (authorRow t) s ∧ occursIn (yearRow t) s ∧ occursIn (titleRow t) s ∧
  occursIn (advisorRow t) s ∧ occursIn (affiliationRow t) s ∧
  occursIn (degreeRow t) s ∧ (t.url ≠ "" → occursIn (urlCell t.url) s)

/-- Record sequence sorted by the year-primary comparator, as `qsort`
leaves the array in `parse_theses_year.c`. -/
def sortedByYear (recs : List Thesis) : Prop :=
  recs.Pairwise (fun t1 t2 => compare_year t1 t2 ≤ 0)

instance (recs : List Thesis) : Decidable (sortedByYear recs) := by
  unfold sortedByYear
  infer_instance

/-- One well-formed 8-line input group: seven non-empty field lines
followed by the blank separator line. -/
def wfGroup : List String :=
  ["Author, A.", "2020", "Title", "Advisor", "Affiliation", "PhD",
   "http://example.org", ""]

/-- Well-formed input of 7 complete record groups, 56 lines in total;
56 is a multiple of 7. -/
def wfInput56 : List String := (List.replicate 7 wfGroup).flatten

/-- Well-formed input of exactly `MAX_DOC` (= 500) complete record
groups, 4000 lines in total. -/
def capInput : List String := (List.replicate MAX_DOC wfGroup).flatten

/-- Two records with byte-equal author fields and different year
fields, the first one byte-greater. -/
def tSmith1 : Thesis := ⟨"Smith, A.", "2020", "T1", "X", "U", "PhD", ""⟩

/-- Companion record to `tSmith1`: same author, smaller year. -/
def tSmith2 : Thesis := ⟨"Smith, A.", "2019", "T2", "Y", "U", "MS", ""⟩

/-- Author-sorted records whose uppercased first letters are A, H, Z:
the list of the alphabetical-bucket test. -/
def recsAHZ : List Thesis :=
  [⟨"Adams", "1999", "T1", "X", "U", "PhD", ""⟩,
   ⟨"Harris", "2003", "T2", "Y", "U", "MS", ""⟩,
   ⟨"Zimmer", "2001", "T3", "Z", "U", "PhD", ""⟩]

/-- Year-sorted records with years 2021, 2021, 2019: two distinct year
values, equal years adjacent. -/
def recsYears : List Thesis :=
  [⟨"Adams", "2021", "T1", "X", "U", "PhD", ""⟩,
   ⟨"Baker", "2021", "T2", "Y", "U", "MS", ""⟩,
   ⟨"Clark", "2019", "T3", "Z", "U", "PhD", "http://c"⟩]

/-- Record with a non-empty url, for concrete render checks. -/
def tUrl : Thesis :=
  ⟨"Doe, J.", "2010", "A title", "Adv", "Aff", "PhD", "http://example.org/x"⟩

/-- Seven field lines of a single record, no trailing separator. -/
def oneRecordLines : List String := ["a", "2020", "t", "adv", "aff", "MS", ""]

/-- The record parsed from `oneRecordLines`. -/
def oneRecord : Thesis := ⟨"a", "2020", "t", "adv", "aff", "MS", ""⟩

/-- Two record groups whose separator line carries arbitrary junk
text. -/
def sepJunkInput : List String :=
  ["a", "2020", "t", "adv", "aff", "MS", "u", "ARBITRARY JUNK ON THE SEPARATOR LINE",
   "b", "2021", "t2", "a2", "f2", "PhD", "u2"]

/-- The same two record groups with a blank separator line. -/
def sepBlankInput : List String :=
  ["a", "2020", "t", "adv", "aff", "MS", "u", "",
   "b", "2021", "t2", "a2", "f2", "PhD", "u2"]

/-! Helper lemmas about the `strcmp` model. -/

theorem strcmpL_flip : ∀ a b : List Char, strcmpL b a = - strcmpL a b
  | [], [] => by simp [strcmpL]
  | [], _ :: _ => by simp [strcmpL]
  | _ :: _, [] => by simp [strcmpL]
  | a :: as, b :: bs => by
    have ih := strcmpL_flip as bs
    simp only [strcmpL]
    rcases lt_trichotomy a b with h | h | h
    · simp [h, asymm h]
    · simp [h, lt_irrefl, ih]
    · simp [h, asymm h]

theorem strcmpL_eq_zero : ∀ a b : List Char, strcmpL a b = 0 ↔ a = b
  | [], [] => by simp [strcmpL]
  | [], _ :: _ => by simp [strcmpL]
  | _ :: _, [] => by simp [strcmpL]
  | a :: as, b :: bs => by
    have ih := strcmpL_eq_zero as bs
    simp only [strcmpL]
    split_ifs with h1 h2
    · simp only [List.cons.injEq]
      constructor
      · intro h0; exact absurd h0 (by decide)
      · rintro ⟨rfl, -⟩; exact absurd h1 (lt_irrefl a)
    · simp only [List.cons.injEq]
      constructor
      · intro h0; exact absurd h0 (by decide)
      · rintro ⟨rfl, -⟩; exact absurd h2 (lt_irrefl a)
    · have hab : a = b := le_antisymm (not_lt.mp h2) (not_lt.mp h1)
      subst hab
      simp [ih]

theorem strcmp_eq_zero_iff (s t : String) : strcmp s t = 0 ↔ s = t := by
  rw [strcmp, strcmpL_eq_zero]
  exact ⟨fun h => String.ext h, fun h => by rw [h]⟩

theorem strcmp_self (s : String) : strcmp s s = 0 :=
  (strcmp_eq_zero_iff s s).mpr rfl

theorem strcmp_flip (s t : String) : strcmp t s = - strcmp s t :=
  strcmpL_flip s.data t.data

theorem strcmp_antisymm {s t : String} (h1 : strcmp s t ≤ 0)
    (h2 : strcmp t s ≤ 0) : s = t := by
  rw [strcmp_flip] at h2
  exact (strcmp_eq_zero_iff s t).mp (by omega)

/-! Helper lemmas about the two parse loops. -/

theorem parseAuxYear_length : ∀ (ls : List String) (acc : List Thesis)
    (scratch : Thesis) (i : Nat), i < 8 →
    (parseAuxYear acc scratch i ls).length =
      acc.length + (ls.length + (i + 1) % 8) / 8
  | [], acc, scratch, i, hi => by
    simp only [parseAuxYear, List.length_nil]
    omega
  | line :: rest, acc, scratch, i, hi => by
    have ih := parseAuxYear_length rest
      (if i = 6 then acc ++ [parseStep scratch i line] else acc)
      (parseStep scratch i line) (if i + 1 = 8 then 0 else i + 1)
      (by split <;> omega)
    simp only [parseAuxYear]
    rw [ih]
    by_cases h6 : i = 6
    · rw [if_pos h6, if_neg (show ¬ i + 1 = 8 by omega)]
      simp only [List.length_append, List.length_cons, List.length_nil]
      omega
    · rw [if_neg h6]
      by_cases h7 : i + 1 = 8
      · rw [if_pos h7]
        simp only [List.length_cons]
        omega
      · rw [if_neg h7]
        simp only [List.length_cons]
        omega

theorem parseAux_none_iff : ∀ (ls : List String) (acc : List Thesis)
    (scratch : Thesis) (i : Nat), i < 8 → acc.length < MAX_DOC →
    (parseAux acc scratch i ls = none ↔
      MAX_DOC ≤ acc.length + (ls.length + (i + 1) % 8) / 8)
  | [], acc, scratch, i, hi, hacc => by
    simp only [parseAux, List.length_nil]
    constructor
    · intro h
      exact absurd h (by simp)
    · intro h
      exfalso
      omega
  | line :: rest, acc, scratch, i, hi, hacc => by
    by_cases h6 : i = 6
    · simp only [parseAux]
      rw [if_pos h6, if_neg (show ¬ i + 1 = 8 by omega)]
      by_cases hcap : MAX_DOC ≤ (acc ++ [parseStep scratch i line]).length
      · rw [if_pos hcap]
        simp only [List.length_append, List.length_cons, List.length_nil] at hcap
        refine ⟨fun _ => ?_, fun _ => rfl⟩
        simp only [List.length_cons]
        omega
      · rw [if_neg hcap]
        rw [parseAux_none_iff rest _ _ (i + 1) (by omega)
          (by simp only [List.length_append, List.length_cons,
                List.length_nil] at hcap ⊢; omega)]
        simp only [List.length_append, List.length_cons, List.length_nil]
        omega
    · simp only [parseAux, if_neg h6]
      rw [if_neg (Nat.not_le.mpr hacc)]
      by_cases h7 : i + 1 = 8
      · rw [if_pos h7, parseAux_none_iff rest acc _ 0 (by omega) hacc]
        simp only [List.length_cons]
        omega
      · rw [if_neg h7, parseAux_none_iff rest acc _ (i + 1) (by omega) hacc]
        simp only [List.length_cons]
        omega

theorem parseAux_some : ∀ (ls : List String) (acc : List Thesis)
    (scratch : Thesis) (i : Nat) (r : List Thesis),
    parseAux acc scratch i ls = some r → r = parseAuxYear acc scratch i ls
  | [], acc, scratch, i, r => by
    intro h
    simp only [parseAux, Option.some.injEq] at h
    subst h
    rfl
  | line :: rest, acc, scratch, i, r => by
    intro h
    simp only [parseAux] at h
    by_cases hcap :
        MAX_DOC ≤ (if i = 6 then acc ++ [parseStep scratch i line] else acc).length
    · rw [if_pos hcap] at h
      exact absurd h (by simp)
    · rw [if_neg hcap] at h
      have ih := parseAux_some rest _ _ _ r h
      simpa only [parseAuxYear] using ih

theorem parse_agree : ∀ (ls1 ls2 : List String) (acc : List Thesis)
    (scratch : Thesis) (i : Nat), i < 8 → ls1.length = ls2.length →
    (∀ k, k < ls1.length → (i + k) % 8 ≠ 7 → ls1.getD k "" = ls2.getD k "") →
    parseAuxYear acc scratch i ls1 = parseAuxYear acc scratch i ls2 ∧
    parseAux acc scratch i ls1 = parseAux acc scratch i ls2
  | [], ls2, acc, scratch, i, hi, hlen, hag => by
    have h2 : ls2 = [] := List.length_eq_zero.mp hlen.symm
    subst h2
    exact ⟨rfl, rfl⟩
  | l1 :: r1, ls2, acc, scratch, i, hi, hlen, hag => by
    cases ls2 with
    | nil => simp at hlen
    | cons l2 r2 =>
      by_cases h7 : i = 7
      · subst h7
        have hstep : ∀ (s : Thesis) (l : String), parseStep s 7 l = s :=
          fun _ _ => rfl
        have hl2 : r1.length = r2.length := by simpa using hlen
        obtain ⟨ihY, ihA⟩ := parse_agree r1 r2 acc scratch 0 (by omega) hl2
          (fun k hk hm => by
            simpa using hag (k + 1) (by simp only [List.length_cons]; omega)
              (by omega))
        refine ⟨?_, ?_⟩
        · simp only [parseAuxYear, hstep]
          norm_num
          exact ihY
        · simp only [parseAux, hstep]
          norm_num
          rw [ihA]
      · have h8 : ¬ i + 1 = 8 := by omega
        have hl : l1 = l2 := by
          simpa using hag 0 (by simp) (by omega)
        subst hl
        have hl2 : r1.length = r2.length := by simpa using hlen
        obtain ⟨ihY, ihA⟩ := parse_agree r1 r2
          (if i = 6 then acc ++ [parseStep scratch i l1] else acc)
          (parseStep scratch i l1) (i + 1) (by omega) hl2
          (fun k hk hm => by
            simpa using hag (k + 1) (by simp only [List.length_cons]; omega)
              (by omega))
        refine ⟨?_, ?_⟩
        · simp only [parseAuxYear, if_neg h8]
          exact ihY
        · simp only [parseAux, if_neg h8, ihA]

/-! Helper lemmas about the year navigation links and anchors. -/

theorem anchorsYearAux_eq_nav : ∀ (ls : List Thesis) (y : String),
    anchorsYearAux y ls = navYearAux y ls
  | [], _ => rfl
  | t :: ts, y => by
    simp only [anchorsYearAux, navYearAux]
    split_ifs with h
    · rw [anchorsYearAux_eq_nav ts t.year]
    · rw [anchorsYearAux_eq_nav ts y]

theorem navYearAux_subset : ∀ (ls : List Thesis) (y z : String),
    z ∈ navYearAux y ls → z ∈ ls.map Thesis.year
  | [], y, z => by simp [navYearAux]
  | t :: ts, y, z => by
    simp only [navYearAux, List.map_cons]
    split_ifs with h
    · intro hz
      rcases List.mem_cons.mp hz with h1 | h1
      · exact List.mem_cons.mpr (Or.inl h1)
      · exact List.mem_cons.mpr (Or.inr (navYearAux_subset ts t.year z h1))
    · intro hz
      exact List.mem_cons.mpr (Or.inr (navYearAux_subset ts y z hz))

theorem navYearAux_mem : ∀ (ls : List Thesis) (y z : String),
    z ∈ ls.map Thesis.year → z = y ∨ z ∈ navYearAux y ls
  | [], y, z => by simp
  | t :: ts, y, z => by
    intro hz
    rw [List.map_cons] at hz
    rcases List.mem_cons.mp hz with h1 | h1
    · simp only [navYearAux]
      split_ifs with h
      · right
        rw [h1]
        exact List.mem_cons_self _ _
      · left
        rw [h1]
        exact ((strcmp_eq_zero_iff y t.year).mp (not_not.mp h)).symm
    · simp only [navYearAux]
      split_ifs with h
      · rcases navYearAux_mem ts t.year z h1 with h2 | h2
        · right
          rw [h2]
          exact List.mem_cons_self _ _
        · right
          exact List.mem_cons_of_mem _ h2
      · exact navYearAux_mem ts y z h1

theorem navYearAux_sublist : ∀ (ls : List Thesis) (y : String),
    List.Sublist (navYearAux y ls) (ls.map Thesis.year)
  | [], y => by simp [navYearAux]
  | t :: ts, y => by
    simp only [navYearAux, List.map_cons]
    split_ifs with h
    · exact List.Sublist.cons₂ _ (navYearAux_sublist ts t.year)
    · exact List.Sublist.cons _ (navYearAux_sublist ts y)

theorem navYearAux_nodup : ∀ (ls : List Thesis) (y : String),
    (y :: ls.map Thesis.year).Pairwise (fun a b => strcmp b a ≤ 0) →
    (y :: navYearAux y ls).Nodup
  | [], y => by simp [navYearAux]
  | t :: ts, y => by
    intro hp
    simp only [navYearAux]
    split_ifs with h
    · have hp' := hp.of_cons
      have ihn := navYearAux_nodup ts t.year hp'
      refine List.nodup_cons.mpr ⟨?_, ihn⟩
      intro hy
      rcases List.mem_cons.mp hy with h1 | h1
      · exact h (by rw [h1]; exact strcmp_self _)
      · have hmem := navYearAux_subset ts t.year y h1
        have h1' : strcmp t.year y ≤ 0 :=
          (List.pairwise_cons.mp hp).1 t.year (List.mem_cons_self _ _)
        have h2' : strcmp y t.year ≤ 0 :=
          (List.pairwise_cons.mp hp').1 y hmem
        apply h
        rw [show y = t.year from (strcmp_antisymm h1' h2').symm]
        exact strcmp_self _
    · have hp' : (y :: ts.map Thesis.year).Pairwise (fun a b => strcmp b a ≤ 0) :=
        List.Pairwise.sublist
          (List.Sublist.cons₂ _ (List.Sublist.cons _ (List.Sublist.refl _))) hp
      exact navYearAux_nodup ts y hp'

theorem pairwise_years {recs : List Thesis} (h : sortedByYear recs) :
    (recs.map Thesis.year).Pairwise (fun a b => strcmp b a ≤ 0) := by
  rw [List.pairwise_map]
  refine h.imp ?_
  intro t1 t2 hc
  by_cases hz : strcmp t2.year t1.year = 0
  · omega
  · simp only [compare_year] at hc
    rwa [if_neg hz] at hc

/-! Helper lemmas about substring occurrence in rendered output. -/

theorem occursIn_self (s : String) : occursIn s s :=
  ⟨"", "", by simp⟩

theorem occursIn_left (u : String) {s t : String} (h : occursIn s t) :
    occursIn s (u ++ t) := by
  obtain ⟨p, q, rfl⟩ := h
  exact ⟨u ++ p, q, by simp [String.append_assoc]⟩

theorem occursIn_right (v : String) {s t : String} (h : occursIn s t) :
    occursIn s (t ++ v) := by
  obtain ⟨p, q, rfl⟩ := h
  exact ⟨p, q ++ v, by simp [String.append_assoc]⟩

theorem occursIn_trans {a b c : String} (h1 : occursIn a b)
    (h2 : occursIn b c) : occursIn a c := by
  obtain ⟨u, v, rfl⟩ := h1
  obtain ⟨p, q, rfl⟩ := h2
  exact ⟨p ++ u, v ++ q, by simp [String.append_assoc]⟩

theorem fieldsVerbatim_tableFor (t : Thesis) : fieldsVerbatim t (tableFor t) := by
  unfold fieldsVerbatim tableFor
  refine ⟨?_, ?_, ?_, ?_, ?_, ?_, ?_⟩
  · exact occursIn_right _ (occursIn_right _ (occursIn_right _ (occursIn_right _
      (occursIn_right _ (occursIn_right _ (occursIn_left _ (occursIn_self _)))))))
  · exact occursIn_right _ (occursIn_right _ (occursIn_right _ (occursIn_right _
      (occursIn_right _ (occursIn_left _ (occursIn_self _))))))
  · exact occursIn_right _ (occursIn_right _ (occursIn_right _ (occursIn_right _
      (occursIn_left _ (occursIn_self _)))))
  · exact occursIn_right _ (occursIn_right _ (occursIn_right _
      (occursIn_left _ (occursIn_self _))))
  · exact occursIn_right _ (occursIn_right _ (occursIn_left _ (occursIn_self _)))
  · exact occursIn_right _ (occursIn_left _ (occursIn_self _))
  · intro hu
    have h1 : occursIn (urlCell t.url) (degreeRow t) := by
      unfold degreeRow
      rw [if_neg hu]
      exact occursIn_left _ (occursIn_self _)
    exact occursIn_trans h1 (occursIn_right _ (occursIn_left _ (occursIn_self _)))

theorem occursIn_tableFor_bodyAlpha : ∀ (recs : List Thesis) (j : Nat)
    (t : Thesis), t ∈ recs → occursIn (tableFor t) (bodyAlpha j recs)
  | [], j, t => by simp
  | x :: xs, j, t => by
    intro ht
    simp only [bodyAlpha]
    rcases List.mem_cons.mp ht with rfl | hmem
    · split_ifs with h
      · exact occursIn_right _ (occursIn_left _ (occursIn_self _))
      · exact occursIn_right _ (occursIn_self _)
    · split_ifs with h
      · exact occursIn_left _ (occursIn_tableFor_bodyAlpha xs (j + 1) t hmem)
      · exact occursIn_left _ (occursIn_tableFor_bodyAlpha xs j t hmem)

theorem occursIn_tableFor_bodyYear : ∀ (recs : List Thesis) (y : String)
    (t : Thesis), t ∈ recs → occursIn (tableFor t) (bodyYear y recs)
  | [], y, t => by simp
  | x :: xs, y, t => by
    intro ht
    simp only [bodyYear]
    rcases List.mem_cons.mp ht with rfl | hmem
    · split_ifs with h
      · exact occursIn_right _ (occursIn_left _ (occursIn_self _))
      · exact occursIn_right _ (occursIn_self _)
    · split_ifs with h
      · exact occursIn_left _ (occursIn_tableFor_bodyYear xs x.year t hmem)
      · exact occursIn_left _ (occursIn_tableFor_bodyYear xs y t hmem)

theorem occursIn_tableFor_writeAlpha {t : Thesis} {recs : List Thesis}
    (h : t ∈ recs) : occursIn (tableFor t) (write_html_alpha recs) := by
  unfold write_html_alpha
  exact occursIn_right _ (occursIn_left _ (occursIn_tableFor_bodyAlpha recs 0 t h))

theorem occursIn_tableFor_writeYear {t : Thesis} {recs : List Thesis} {s : String}
    (h : t ∈ recs) (hs : write_html_year recs = some s) :
    occursIn (tableFor t) s := by
  cases recs with
  | nil => exact absurd h (List.not_mem_nil t)
  | cons t0 rest =>
    simp only [write_html_year, Option.some.injEq] at hs
    subst hs
    exact occursIn_right _
      (occursIn_left _ (occursIn_tableFor_bodyYear (t0 :: rest) t0.year t h))

theorem fieldsVerbatim_mono {t : Thesis} {s s' : String}
    (h : fieldsVerbatim t s) (hs : occursIn s s') : fieldsVerbatim t s' := by
  obtain ⟨h1, h2, h3, h4, h5, h6, h7⟩ := h
  exact ⟨occursIn_trans h1 hs, occursIn_trans h2 hs, occursIn_trans h3 hs,
    occursIn_trans h4 hs, occursIn_trans h5 hs, occursIn_trans h6 hs,
    fun hu => occursIn_trans (h7 hu) hs⟩

theorem beginsWith_writeAlpha (recs : List Thesis) :
    beginsWith (beginMarker ++ "<div align=\"center\">\n\n" ++ navHeaderAlpha)
      (write_html_alpha recs) :=
  ⟨bodyAlpha 0 recs ++ footer recs, by simp [write_html_alpha, String.append_assoc]⟩

/-! Claim theorems. -/

/-- C1: the claim says the author-primary comparator breaks author ties
by the `year` field compared as raw byte strings ascending.  In the code
the tie-break `if (t1->year < t2->year)` compares the addresses of the
two embedded `year` buffers — the records' positions in the array — and
never reads the year bytes: for two equal-author records whose years
differ ("2020" at position 0, "2019" at position 1), the comparator
returns -1 for both relative orders, so both permutations are accepted
as sorted and the output order is left to the internals of `qsort`. -/
theorem C1_year_tiebreak_ignores_year :
    compareAuthor tSmith1 tSmith2 = 0 ∧
    0 < strcmp tSmith1.year tSmith2.year ∧
    compare_alpha 0 1 tSmith1 tSmith2 = -1 ∧
    compare_alpha 0 1 tSmith2 tSmith1 = -1 := by
  decide

/-- C5: the year-primary comparator orders records by `year` compared
as raw byte strings descending (a record with byte-greater year compares
smaller, hence renders first), and for byte-equal years it falls back to
the author comparison with the first character of each local copy
uppercased, ascending. -/
theorem C5_year_comparator (t1 t2 : Thesis) :
    (strcmp t1.year t2.year < 0 → 0 < compare_year t1 t2) ∧
    (strcmp t2.year t1.year < 0 → compare_year t1 t2 < 0) ∧
    (t1.year = t2.year →
      compare_year t1 t2 = strcmp (upperFirst t1.author) (upperFirst t2.author)) := by
  refine ⟨?_, ?_, ?_⟩
  · intro h
    have hf : strcmp t2.year t1.year = - strcmp t1.year t2.year := strcmp_flip _ _
    simp only [compare_year]
    rw [if_neg (by omega)]
    omega
  · intro h
    simp only [compare_year]
    rw [if_neg (by omega)]
    exact h
  · intro h
    simp only [compare_year]
    rw [h, strcmp_self, if_pos rfl]
    rfl

/-- Witness for C5 at concrete records: the byte-greater year "2020"
sorts first, and an exact year tie falls back to the author key. -/
theorem C5_year_comparator_witness :
    0 < compare_year tSmith2 tSmith1 ∧
    compare_year tSmith1 tSmith2 < 0 ∧
    compare_year tSmith1 tSmith1 =
      strcmp (upperFirst tSmith1.author) (upperFirst tSmith1.author) :=
  ⟨(C5_year_comparator tSmith2 tSmith1).1 (by decide),
   (C5_year_comparator tSmith1 tSmith2).2.1 (by decide),
   (C5_year_comparator tSmith1 tSmith1).2.2 rfl⟩

/-- C9: the year-variant renderer reads `entry[0]` before iterating, so
it is only safe when at least one record was parsed: rendering is
defined (`some`) exactly for non-empty record sequences, the empty input
parses to zero records, and rendering the zero-record result is the
invalid access modelled by `none`. -/
theorem C9_zero_records_unsafe :
    (∀ recs : List Thesis, write_html_year recs = none ↔ recs = []) ∧
    parse_text_year [] = [] ∧
    write_html_year (parse_text_year []) = none := by
  refine ⟨?_, rfl, rfl⟩
  intro recs
  cases recs with
  | nil => simp [write_html_year]
  | cons t0 rest => simp [write_html_year]

/-- Witness for C9: the empty input yields zero records and rendering
them is the invalid access. -/
theorem C9_zero_records_unsafe_witness :
    write_html_year (parse_text_year []) = none :=
  C9_zero_records_unsafe.2.2

/-- C10: in both parsers every 8th line of a group (field-position 7) is
discarded without inspection: two inputs of equal length that agree on
all lines except possibly those at positions 7 mod 8 parse to the same
result, so the separator line need not be blank and its content never
reaches any field or the output. -/
theorem C10_separator_line_ignored (ls1 ls2 : List String)
    (hlen : ls1.length = ls2.length)
    (hag : ∀ k, k < ls1.length → k % 8 ≠ 7 → ls1.getD k "" = ls2.getD k "") :
    parse_text_year ls1 = parse_text_year ls2 ∧
    parse_text ls1 = parse_text ls2 :=
  parse_agree ls1 ls2 [] emptyThesis 0 (by omega) hlen
    (fun k hk hm => hag k hk (by omega))

/-- Witness for C10: junk text on the separator line parses identically
to a blank separator line. -/
theorem C10_separator_line_ignored_witness :
    parse_text_year sepJunkInput = parse_text_year sepBlankInput ∧
    parse_text sepJunkInput = parse_text sepBlankInput :=
  C10_separator_line_ignored sepJunkInput sepBlankInput (by decide) (by decide)

/-- C2 counterexample: a well-formed input of 7 complete record groups
(7 field lines plus a blank separator line each) has 56 lines, a
multiple of 7, yet parses to 7 records, not 56 / 7 = 8: the parse cycle
consumes 8 lines per record, not 7. -/
theorem C2_multiple_of_seven_counterexample :
    wfInput56.length = 56 ∧ 56 % 7 = 0 ∧
    (parse_text_year wfInput56).length = 7 ∧
    (parse_text_year wfInput56).length ≠ 56 / 7 := by
  have hlen : wfInput56.length = 56 := by
    show (List.replicate 7 wfGroup).flatten.length = 56
    rw [List.length_flatten, List.map_replicate, List.sum_replicate]
    norm_num [wfGroup]
  have hcnt : (parse_text_year wfInput56).length = 7 := by
    have h := parseAuxYear_length wfInput56 [] emptyThesis 0 (by omega)
    simp only [parse_text_year]
    rw [h, hlen]
    norm_num
  exact ⟨hlen, by norm_num, hcnt, by rw [hcnt]; norm_num⟩

/-- C2 (amended): for every input, the number of complete records parsed
is `(line_count + 1) / 8` — each record consumes its 7 field lines plus
one separator line, the final separator being optional — in the
dynamic-growth parser always, and in the fixed-capacity parser whenever
it succeeds. -/
theorem C2_record_count (lines : List String) :
    (parse_text_year lines).length = (lines.length + 1) / 8 ∧
    (∀ r, parse_text lines = some r → r.length = (lines.length + 1) / 8) := by
  constructor
  · have h := parseAuxYear_length lines [] emptyThesis 0 (by omega)
    simpa using h
  · intro r hr
    rw [parseAux_some lines [] emptyThesis 0 r hr]
    have h := parseAuxYear_length lines [] emptyThesis 0 (by omega)
    simpa using h

/-- Witness for C2 at a 7-line input holding one complete record. -/
theorem C2_record_count_witness :
    (parse_text_year oneRecordLines).length = (oneRecordLines.length + 1) / 8 ∧
    [oneRecord].length = (oneRecordLines.length + 1) / 8 :=
  ⟨(C2_record_count oneRecordLines).1,
   (C2_record_count oneRecordLines).2 [oneRecord] (by decide)⟩

/-- C4 counterexample: an input of exactly `MAX_DOC` = 500 complete
record groups (4000 lines) does not exceed the configured maximum, yet
the fixed-capacity parser reports the entry-limit error (the check
`cnt >= MAX_DOC` fires as the 500th record completes) and `main` exits
without writing any HTML. -/
theorem C4_exactly_max_records_rejected :
    capInput.length = 4000 ∧
    (parse_text_year capInput).length = MAX_DOC ∧
    parse_text capInput = none ∧
    main_alpha capInput = none := by
  have hlen : capInput.length = 4000 := by
    show (List.replicate MAX_DOC wfGroup).flatten.length = 4000
    rw [List.length_flatten, List.map_replicate, List.sum_replicate]
    norm_num [MAX_DOC, wfGroup]
  have hyear : (parse_text_year capInput).length = MAX_DOC := by
    have h := parseAuxYear_length capInput [] emptyThesis 0 (by omega)
    simp only [parse_text_year]
    rw [h, hlen]
    norm_num [MAX_DOC]
  have hnone : parse_text capInput = none := by
    simp only [parse_text]
    refine (parseAux_none_iff capInput [] emptyThesis 0 (by omega)
      (by simp [MAX_DOC])).mpr ?_
    rw [hlen]
    norm_num [MAX_DOC]
  exact ⟨hlen, hyear, hnone, by simp [main_alpha, hnone]⟩

/-- C4 (amended): the fixed-capacity variant fails — parse error, no
HTML produced — exactly when the input contains at least `MAX_DOC`
(500) complete records; every input with at most 499 complete records
parses and renders successfully. -/
theorem C4_capacity_threshold (lines : List String) :
    (parse_text lines = none ↔ MAX_DOC ≤ (parse_text_year lines).length) ∧
    (main_alpha lines = none ↔ MAX_DOC ≤ (parse_text_year lines).length) := by
  have hy : (parse_text_year lines).length = (lines.length + 1) / 8 := by
    have h := parseAuxYear_length lines [] emptyThesis 0 (by omega)
    simpa using h
  have hp : parse_text lines = none ↔ MAX_DOC ≤ (parse_text_year lines).length := by
    simp only [parse_text]
    rw [parseAux_none_iff lines [] emptyThesis 0 (by omega) (by simp [MAX_DOC]), hy]
    norm_num
  exact ⟨hp, by rw [← hp]; simp [main_alpha]⟩

/-- Witness for C4 at the empty input: no failure, zero records. -/
theorem C4_capacity_threshold_witness :
    (parse_text ([] : List String) = none ↔
      MAX_DOC ≤ (parse_text_year ([] : List String)).length) ∧
    (main_alpha ([] : List String) = none ↔
      MAX_DOC ≤ (parse_text_year ([] : List String)).length) :=
  C4_capacity_threshold []

/-- C3 counterexample: for the author-sorted records "Adams", "Harris",
"Zimmer" the claim predicts the anchors "A-G", "H-N", "V-Z" with "O-U"
omitted; in the code the bucket test runs at most once per record, so
the record "Zimmer" satisfies the pending "O-U" test and receives the
"O-U" anchor, while "V-Z" is never emitted. -/
theorem C3_anchor_list_counterexample :
    anchorsAlpha 0 recsAHZ ≠ ["A-G", "H-N", "V-Z"] ∧
    "O-U" ∈ anchorsAlpha 0 recsAHZ := by
  decide

/-- C3 (amended): for the records "Adams", "Harris", "Zimmer" exactly 3
anchors are inserted, named "A-G", "H-N" and "O-U" ("V-Z" is the one
omitted, the bucket index lagging one behind for "Zimmer"); the
"Jump to" header opens the output for every record list whatsoever and
lists all four bucket links. -/
theorem C3_anchor_list :
    anchorsAlpha 0 recsAHZ = ["A-G", "H-N", "O-U"] ∧
    (∀ recs : List Thesis,
      beginsWith (beginMarker ++ "<div align=\"center\">\n\n" ++ navHeaderAlpha)
        (write_html_alpha recs)) ∧
    occursIn "<a href=\"#A-G\">A-G</a>" navHeaderAlpha ∧
    occursIn "<a href=\"#H-N\">H-N</a>" navHeaderAlpha ∧
    occursIn "<a href=\"#O-U\">O-U</a>" navHeaderAlpha ∧
    occursIn "<a href=\"#V-Z\">V-Z</a>" navHeaderAlpha := by
  refine ⟨by decide, beginsWith_writeAlpha, ?_, ?_, ?_, ?_⟩
  · exact ⟨"  <b>Jump to:</b>&nbsp;\n  ",
      "&nbsp;|\n  <a href=\"#H-N\">H-N</a>&nbsp;|\n  <a href=\"#O-U\">O-U</a>&nbsp;|\n  <a href=\"#V-Z\">V-Z</a>\n\n  <br><br>\n\n",
      by decide⟩
  · exact ⟨"  <b>Jump to:</b>&nbsp;\n  <a href=\"#A-G\">A-G</a>&nbsp;|\n  ",
      "&nbsp;|\n  <a href=\"#O-U\">O-U</a>&nbsp;|\n  <a href=\"#V-Z\">V-Z</a>\n\n  <br><br>\n\n",
      by decide⟩
  · exact ⟨"  <b>Jump to:</b>&nbsp;\n  <a href=\"#A-G\">A-G</a>&nbsp;|\n  <a href=\"#H-N\">H-N</a>&nbsp;|\n  ",
      "&nbsp;|\n  <a href=\"#V-Z\">V-Z</a>\n\n  <br><br>\n\n",
      by decide⟩
  · exact ⟨"  <b>Jump to:</b>&nbsp;\n  <a href=\"#A-G\">A-G</a>&nbsp;|\n  <a href=\"#H-N\">H-N</a>&nbsp;|\n  <a href=\"#O-U\">O-U</a>&nbsp;|\n  ",
      "\n\n  <br><br>\n\n",
      by decide⟩

/-- C6: for every non-empty record sequence sorted by the year-primary
comparator, the navigation line links exactly the distinct year values,
without repetition, in the order of their first appearance (the link
labels form a sublist of the year sequence), the anchor/heading labels
coincide with the navigation labels, and their number equals the number
of distinct year values. -/
theorem C6_year_navigation (recs : List Thesis) (hne : recs ≠ [])
    (hs : sortedByYear recs) :
    navLinksYear recs = anchorsYear recs ∧
    (navLinksYear recs).Nodup ∧
    (∀ y, y ∈ navLinksYear recs ↔ y ∈ recs.map Thesis.year) ∧
    List.Sublist (navLinksYear recs) (recs.map Thesis.year) ∧
    (navLinksYear recs).length = (recs.map Thesis.year).dedup.length := by
  cases recs with
  | nil => exact absurd rfl hne
  | cons t0 rest =>
    have hpw : (t0.year :: rest.map Thesis.year).Pairwise
        (fun a b => strcmp b a ≤ 0) := by
      have h := pairwise_years hs
      simpa using h
    have hskip : navYearAux t0.year (t0 :: rest) = navYearAux t0.year rest := by
      simp only [navYearAux]
      rw [if_neg (by simp [strcmp_self])]
    have heq : navLinksYear (t0 :: rest) = t0.year :: navYearAux t0.year rest := by
      simp only [navLinksYear, hskip]
    have hnd : (t0.year :: navYearAux t0.year rest).Nodup :=
      navYearAux_nodup rest t0.year hpw
    have hmem : ∀ y, y ∈ t0.year :: navYearAux t0.year rest ↔
        y ∈ (t0 :: rest).map Thesis.year := by
      intro y
      rw [List.map_cons]
      constructor
      · intro hy
        rcases List.mem_cons.mp hy with h1 | h1
        · rw [h1]; exact List.mem_cons_self _ _
        · exact List.mem_cons_of_mem _ (navYearAux_subset rest t0.year y h1)
      · intro hy
        rcases List.mem_cons.mp hy with h1 | h1
        · rw [h1]; exact List.mem_cons_self _ _
        · rcases navYearAux_mem rest t0.year y h1 with h2 | h2
          · rw [h2]; exact List.mem_cons_self _ _
          · exact List.mem_cons_of_mem _ h2
    have hfin : (t0.year :: navYearAux t0.year rest).toFinset =
        ((t0 :: rest).map Thesis.year).toFinset := by
      apply Finset.ext
      intro y
      simp only [List.mem_toFinset]
      exact hmem y
    have hlen : (t0.year :: navYearAux t0.year rest).length =
        ((t0 :: rest).map Thesis.year).dedup.length := by
      calc (t0.year :: navYearAux t0.year rest).length
          = (t0.year :: navYearAux t0.year rest).toFinset.card :=
            (List.toFinset_card_of_nodup hnd).symm
        _ = ((t0 :: rest).map Thesis.year).toFinset.card := by rw [hfin]
        _ = ((t0 :: rest).map Thesis.year).dedup.length := List.card_toFinset _
    refine ⟨?_, ?_, ?_, ?_, ?_⟩
    · simp only [navLinksYear, anchorsYear, anchorsYearAux_eq_nav]
    · rw [heq]; exact hnd
    · intro y; rw [heq]; exact hmem y
    · rw [heq, List.map_cons]
      exact List.Sublist.cons₂ _ (navYearAux_sublist rest t0.year)
    · rw [heq]; exact hlen

/-- Witness for C6 at three year-sorted records with years 2021, 2021,
2019. -/
theorem C6_year_navigation_witness :
    navLinksYear recsYears = anchorsYear recsYears ∧
    (navLinksYear recsYears).Nodup ∧
    (∀ y, y ∈ navLinksYear recsYears ↔ y ∈ recsYears.map Thesis.year) ∧
    List.Sublist (navLinksYear recsYears) (recsYears.map Thesis.year) ∧
    (navLinksYear recsYears).length = (recsYears.map Thesis.year).dedup.length :=
  C6_year_navigation recsYears (by decide) (by decide)

/-- C7: for every record handed to either renderer, each of the seven
field values appears verbatim — un-escaped and un-modified — inside its
labeled cell of the record's table in the rendered output, and sorting
permutes the parsed records without modifying any of them: the
uppercase-first-letter normalization lives only in the comparator's
local copies. -/
theorem C7_fields_verbatim (t : Thesis) (recs : List Thesis) (h : t ∈ recs) :
    fieldsVerbatim t (write_html_alpha recs) ∧
    (∀ s, write_html_year recs = some s → fieldsVerbatim t s) ∧
    (sortAlpha recs).Perm recs := by
  refine ⟨?_, ?_, ?_⟩
  · exact fieldsVerbatim_mono (fieldsVerbatim_tableFor t)
      (occursIn_tableFor_writeAlpha h)
  · intro s hs
    exact fieldsVerbatim_mono (fieldsVerbatim_tableFor t)
      (occursIn_tableFor_writeYear h hs)
  · exact List.mergeSort_perm recs _

/-- Witness for C7 at a concrete record with a non-empty url. -/
theorem C7_fields_verbatim_witness :
    fieldsVerbatim tUrl (write_html_alpha [tUrl]) ∧
    (∀ s, write_html_year [tUrl] = some s → fieldsVerbatim tUrl s) ∧
    (sortAlpha [tUrl]).Perm [tUrl] :=
  C7_fields_verbatim tUrl [tUrl] (by simp)

/-- C8: the degree row of every rendered record consists of the single
degree cell when the `url` field is empty, and gains exactly the URL
link cell — href exactly the stored string, target="_blank", label
"URL" — when `url` is non-empty; the row occurs in the output of both
render variants. -/
theorem C8_degree_row_url (t : Thesis) (recs : List Thesis) (h : t ∈ recs) :
    (t.url = "" →
      degreeRow t = "    <tr><td><b>Degree:</b> " ++ t.degree ++ "</td></tr>\n") ∧
    (t.url ≠ "" →
      degreeRow t = "    <tr><td><b>Degree:</b> " ++ t.degree ++ "</td>"
        ++ urlCell t.url) ∧
    occursIn (degreeRow t) (write_html_alpha recs) ∧
    (∀ s, write_html_year recs = some s → occursIn (degreeRow t) s) := by
  have hrow : occursIn (degreeRow t) (tableFor t) := by
    unfold tableFor
    exact occursIn_right _ (occursIn_left _ (occursIn_self _))
  refine ⟨?_, ?_, ?_, ?_⟩
  · intro hu
    unfold degreeRow
    rw [if_pos hu]
    simp only [String.append_assoc]
    rw [show ("</td>" : String) ++ "</tr>\n" = "</td></tr>\n" by decide]
  · intro hu
    unfold degreeRow
    rw [if_neg hu]
  · exact occursIn_trans hrow (occursIn_tableFor_writeAlpha h)
  · intro s hs
    exact occursIn_trans hrow (occursIn_tableFor_writeYear h hs)

/-- Witness for C8: the single-cell row for an empty url, the link cell
for a non-empty url, and the row's occurrence in the rendered page. -/
theorem C8_degree_row_url_witness :
    degreeRow oneRecord =
      "    <tr><td><b>Degree:</b> " ++ oneRecord.degree ++ "</td></tr>\n" ∧
    degreeRow tUrl =
      "    <tr><td><b>Degree:</b> " ++ tUrl.degree ++ "</td>" ++ urlCell tUrl.url ∧
    occursIn (degreeRow tUrl) (write_html_alpha [tUrl]) :=
  ⟨(C8_degree_row_url oneRecord [oneRecord] (by simp)).1 rfl,
   (C8_degree_row_url tUrl [tUrl] (by simp)).2.1 (by decide),
   (C8_degree_row_url tUrl [tUrl] (by simp)).2.2.1⟩

end Theses
